import Mathlib

/-!
Verification of the glide window manager's layout engine against its
natural-language specification.  Rust `f32`/`f64` arithmetic is modelled
over `ℚ` (for the purely rational computations) and over `ℝ` (for the
spring animator, which uses `exp`/`cos`/`sin`).  Machine floats are thus
idealised as exact arithmetic; `Option` models fallible lookups and an
explicit outcome type models `unwrap` panics.
-/

namespace Glide

/-! ## Spring animation (src/model/spring.rs)

Time (`Instant`) is modelled as a real number; `duration_since` saturates
at zero for times before `start_time`, matching `Instant::duration_since`.
-/

structure SpringAnimation where
  initial_value : ℝ
  target_value : ℝ
  initial_velocity : ℝ
  start_time : ℝ
  response : ℝ
  damping_fraction : ℝ
  omega_n : ℝ
  omega_d : ℝ
  zeta : ℝ

/-- Mirrors `SpringAnimation::new`: `omega_n = 2π/response`,
`zeta = damping_fraction`, `omega_d = omega_n * sqrt(max (1 - ζ·ζ) 0)`. -/
noncomputable def SpringAnimation.new (initial_value target_value initial_velocity
    response damping_fraction now : ℝ) : SpringAnimation :=
  let omega_n := 2 * Real.pi / response
  let zeta := damping_fraction
  let omega_d := omega_n * Real.sqrt (max (1 - zeta * zeta) 0)
  { initial_value := initial_value
    target_value := target_value
    initial_velocity := initial_velocity
    start_time := now
    response := response
    damping_fraction := damping_fraction
    omega_n := omega_n
    omega_d := omega_d
    zeta := zeta }

/-- Mirrors `SpringAnimation::with_defaults`. -/
noncomputable def SpringAnimation.with_defaults (initial_value target_value now : ℝ) :
    SpringAnimation :=
  SpringAnimation.new initial_value target_value 0 (1/2) 1 now

/-- Elapsed seconds since the spring started (saturating at 0). -/
noncomputable def SpringAnimation.elapsed (s : SpringAnimation) (time : ℝ) : ℝ :=
  max (time - s.start_time) 0

/-- Mirrors `SpringAnimation::value_at`. -/
noncomputable def SpringAnimation.value_at (s : SpringAnimation) (time : ℝ) : ℝ :=
  let t := s.elapsed time
  let x0 := s.initial_value - s.target_value
  let v0 := s.initial_velocity
  let displacement :=
    if 1 ≤ s.zeta then
      Real.exp (-s.omega_n * t) * (x0 + (v0 + s.omega_n * x0) * t)
    else
      Real.exp (-s.zeta * s.omega_n * t) *
        (x0 * Real.cos (s.omega_d * t) +
          (v0 + s.zeta * s.omega_n * x0) / s.omega_d * Real.sin (s.omega_d * t))
  s.target_value + displacement

/-- Mirrors `SpringAnimation::velocity_at`. -/
noncomputable def SpringAnimation.velocity_at (s : SpringAnimation) (time : ℝ) : ℝ :=
  let t := s.elapsed time
  let x0 := s.initial_value - s.target_value
  let v0 := s.initial_velocity
  if 1 ≤ s.zeta then
    let a := v0 + s.omega_n * x0
    Real.exp (-s.omega_n * t) * (a - s.omega_n * (x0 + a * t))
  else
    let b := (v0 + s.zeta * s.omega_n * x0) / s.omega_d
    Real.exp (-s.zeta * s.omega_n * t) *
      (-s.zeta * s.omega_n * (x0 * Real.cos (s.omega_d * t) + b * Real.sin (s.omega_d * t)) +
        (-x0 * s.omega_d * Real.sin (s.omega_d * t) + b * s.omega_d * Real.cos (s.omega_d * t)))

/-- Mirrors `SpringAnimation::retarget`: samples value and velocity at `now`,
then restarts the spring from there toward `new_target`. -/
noncomputable def SpringAnimation.retarget (s : SpringAnimation) (new_target now : ℝ) :
    SpringAnimation :=
  { s with
    initial_value := s.value_at now
    target_value := new_target
    initial_velocity := s.velocity_at now
    start_time := now }

/-- Mirrors `SpringAnimation::target`. -/
def SpringAnimation.target (s : SpringAnimation) : ℝ := s.target_value

/-- Mirrors `SpringAnimation::current`. -/
noncomputable def SpringAnimation.current (s : SpringAnimation) (now : ℝ) : ℝ :=
  s.value_at now

/-- Coherence of the derived spring parameters, as established by
`SpringAnimation::new` (with a positive response time and a nonnegative
damping fraction) and preserved by `retarget`, which never touches these
fields. -/
def SpringAnimation.WellFormed (s : SpringAnimation) : Prop :=
  s.omega_d = s.omega_n * Real.sqrt (max (1 - s.zeta * s.zeta) 0) ∧
    s.omega_n = 2 * Real.pi / s.response ∧ 0 < s.response ∧ 0 ≤ s.zeta

/-! ## Scroll viewport (src/model/scroll_viewport.rs) -/

inductive ScrollState where
  | Static (v : ℝ)
  | Animating (spring : SpringAnimation)

/-- Mirrors `ScrollState::current`. -/
noncomputable def ScrollState.current (s : ScrollState) (now : ℝ) : ℝ :=
  match s with
  | .Static v => v
  | .Animating spring => spring.current now

/-- Mirrors `ScrollState::target`. -/
def ScrollState.target : ScrollState → ℝ
  | .Static v => v
  | .Animating spring => spring.target

inductive CenterMode where
  | Never
  | Always
  | OnOverflow
deriving DecidableEq

structure ViewportState where
  scroll : ScrollState
  active_column_index : ℕ
  screen_width : ℝ
  user_scrolling : Bool
  scroll_progress : ℝ

/-- Mirrors `ViewportState::new`. -/
def ViewportState.new (screen_width : ℝ) : ViewportState :=
  { scroll := .Static 0
    active_column_index := 0
    screen_width := screen_width
    user_scrolling := false
    scroll_progress := 0 }

/-- Mirrors `ViewportState::scroll_offset`. -/
noncomputable def ViewportState.scroll_offset (vp : ViewportState) (now : ℝ) : ℝ :=
  vp.scroll.current now

/-- Mirrors `ViewportState::target_offset`. -/
def ViewportState.target_offset (vp : ViewportState) : ℝ :=
  vp.scroll.target

/-- Mirrors `ViewportState::snap_to_offset`. -/
def ViewportState.snap_to_offset (vp : ViewportState) (offset : ℝ) : ViewportState :=
  { vp with scroll := .Static offset }

/-- Mirrors `ViewportState::animate_to`: retarget a running spring, or launch
a default spring from a static offset. -/
noncomputable def ViewportState.animate_to (vp : ViewportState) (target now : ℝ) :
    ViewportState :=
  match vp.scroll with
  | .Animating spring => { vp with scroll := .Animating (spring.retarget target now) }
  | .Static current =>
      { vp with scroll := .Animating (SpringAnimation.with_defaults current target now) }

/-- Mirrors `ViewportState::compute_edge_fit`.  Rust's `f64::clamp(0.0, gap)`
is modelled as `min (max _ 0) gap` (the source never passes a negative gap,
where `clamp` would panic). -/
noncomputable def ViewportState.compute_edge_fit (vp : ViewportState)
    (col_x col_w current gap : ℝ) : ℝ :=
  let view_left := current
  let view_right := current + vp.screen_width
  if view_left ≤ col_x ∧ col_x + col_w ≤ view_right then current
  else
    let padding := min (max ((vp.screen_width - col_w) / 2) 0) gap
    if col_x < view_left then col_x - padding
    else col_x + col_w + padding - vp.screen_width

/-- Mirrors `ViewportState::ensure_column_visible`.  Note the source only
acts when the new offset is more than 0.5 from the current target; there is
no else branch. -/
noncomputable def ViewportState.ensure_column_visible (vp : ViewportState)
    (column_index : ℕ) (column_x column_width : ℝ) (center_mode : CenterMode)
    (gap now : ℝ) : ViewportState :=
  let vp := { vp with active_column_index := column_index, user_scrolling := false }
  let current := vp.target_offset
  let new_offset :=
    match center_mode with
    | .Always => column_x + column_width / 2 - vp.screen_width / 2
    | .OnOverflow =>
        if vp.screen_width < column_width then
          column_x + column_width / 2 - vp.screen_width / 2
        else vp.compute_edge_fit column_x column_width current gap
    | .Never => vp.compute_edge_fit column_x column_width current gap
  if 1/2 < |new_offset - current| then vp.animate_to new_offset now else vp

/-- Truncation toward zero, as Rust's `f64::trunc` composed with `as i32`
(the saturating cast is irrelevant at the modelled magnitudes). -/
noncomputable def truncToInt (x : ℝ) : ℤ :=
  if 0 ≤ x then ⌊x⌋ else ⌈x⌉

/-- Mirrors `ViewportState::accumulate_scroll`; returns the emitted step
count together with the updated state. -/
noncomputable def ViewportState.accumulate_scroll (vp : ViewportState)
    (delta avg_column_width : ℝ) : Option ℤ × ViewportState :=
  if avg_column_width ≤ 0 then (none, vp)
  else
    let progress := vp.scroll_progress + delta
    let steps : ℤ := truncToInt (progress / avg_column_width)
    if steps ≠ 0 then
      (some steps, { vp with scroll_progress := progress - steps * avg_column_width })
    else (none, { vp with scroll_progress := progress })

/-! ## Size-constraint solver (src/model/scroll_constraints.rs)

The solver is pure `f64` arithmetic (no transcendental functions), modelled
exactly over `ℚ`.  Index-driven loops over `0..count` become maps and folds
over `List.range count`; in-place updates become `List.set`.
-/

def MIN_WINDOW_SIZE : ℚ := 50

structure WindowInput where
  weight : ℚ
  min_size : ℚ
  max_size : Option ℚ
  fixed_size : Option ℚ

structure WindowOutput where
  size : ℚ
  was_constrained : Bool
deriving DecidableEq, Repr

/-- Default used for (provably in-bounds) list indexing. -/
def winDefault : WindowInput := { weight := 0, min_size := 0, max_size := none, fixed_size := none }

/-- Machine epsilon of `f64`, used by the was-constrained test. -/
def F64_EPSILON : ℚ := 1 / 2 ^ 52

/-- The weights with the floor of `0.1` applied, as `w.weight.max(0.1)`. -/
def solveWeights (windows : List WindowInput) : List ℚ :=
  windows.map (fun w => max w.weight (1/10))

/-- Early branch of `solve_sizes`: `usable` is non-positive or below the sum
of minimums, so `max usable 0` is distributed by weight, every entry marked
constrained, with the floor of 1 applied. -/
def solveFallback (windows : List WindowInput) (usable : ℚ) : List WindowOutput :=
  let weights := solveWeights windows
  let total_weight := weights.sum
  (List.range windows.length).map (fun i =>
    let size := if 0 < total_weight then max (max usable 0 * weights.getD i 0 / total_weight) 1
      else 1
    { size := size, was_constrained := true })

/-- Initial fixing pass: entries with a `fixed_size` are clamped into their
bounds and pinned; entries with `max ≤ min` are pinned at `min`.  Rust's
`fs.clamp(min, max.unwrap_or(f64::MAX))` is modelled with the absent upper
bound simply not clamping (the source never passes `min > max` there, where
`clamp` would panic). -/
def solvePhaseFix (windows : List WindowInput) : List ℚ × List Bool :=
  let count := windows.length
  (List.range count).foldl (fun acc i =>
    let w := windows.getD i winDefault
    match w.fixed_size with
    | some fs =>
        let clamped := match w.max_size with
          | some mx => min (max fs w.min_size) mx
          | none => max fs w.min_size
        (acc.1.set i clamped, acc.2.set i true)
    | none =>
        match w.max_size with
        | some m => if m ≤ w.min_size then (acc.1.set i w.min_size, acc.2.set i true) else acc
        | none => acc)
    (List.replicate count (0:ℚ), List.replicate count false)

/-- One restartable weighted-distribution pass, fueled by `count + 1` as in
the source loop: distribute `remaining` over non-fixed entries by weight;
on the first proposal below an entry's `min`, pin that entry and restart. -/
def solveDistLoop (windows : List WindowInput) (weights : List ℚ) (usable : ℚ) :
    ℕ → List ℚ → List Bool → List ℚ × List Bool
  | 0, sizes, fixed => (sizes, fixed)
  | fuel + 1, sizes, fixed =>
    let count := windows.length
    let used := (List.range count).foldl
      (fun a i => if fixed.getD i false then a + sizes.getD i 0 else a) 0
    let remaining := usable - used
    let total_weight := (List.range count).foldl
      (fun a i => if fixed.getD i false then a else a + weights.getD i 0) 0
    if total_weight ≤ 0 then (sizes, fixed)
    else
      match (List.range count).find? (fun i =>
          !(fixed.getD i false) &&
            decide (remaining * (weights.getD i 0 / total_weight) <
              (windows.getD i winDefault).min_size)) with
      | some i =>
          solveDistLoop windows weights usable fuel
            (sizes.set i (windows.getD i winDefault).min_size) (fixed.set i true)
      | none =>
          ((List.range count).foldl (fun sz i =>
            if fixed.getD i false then sz
            else sz.set i (remaining * (weights.getD i 0 / total_weight))) sizes, fixed)

/-- Max-clamping pass: entries above their `max` are clamped there, the
clipped amount accumulating into `excess`. -/
def solveClamp (windows : List WindowInput) (sizes : List ℚ) : List ℚ × List Bool × ℚ :=
  let count := windows.length
  (List.range count).foldl (fun acc i =>
    match (windows.getD i winDefault).max_size with
    | some m =>
        if m < acc.1.getD i 0 then
          (acc.1.set i m, acc.2.1.set i true, acc.2.2 + (acc.1.getD i 0 - m))
        else acc
    | none => acc)
    (sizes, List.replicate count false, 0)

/-- Redistribution of the clamped excess to the still-unclamped, non-fixed
entries, by weight. -/
def solveRedistribute (windows : List WindowInput) (weights : List ℚ) (fixed : List Bool)
    (sizes : List ℚ) (max_fixed : List Bool) (excess : ℚ) : List ℚ :=
  let count := windows.length
  if 0 < excess then
    let redist_weight := (List.range count).foldl (fun a i =>
      if !(max_fixed.getD i false) && !(fixed.getD i false) then a + weights.getD i 0 else a) 0
    if 0 < redist_weight then
      (List.range count).foldl (fun sz i =>
        if !(max_fixed.getD i false) && !(fixed.getD i false) then
          sz.set i (sz.getD i 0 + excess * (weights.getD i 0 / redist_weight))
        else sz) sizes
    else sizes
  else sizes

/-- Main branch of `solve_sizes` after the fallback test. -/
def solveMain (windows : List WindowInput) (usable : ℚ) : List WindowOutput :=
  let count := windows.length
  let weights := solveWeights windows
  let start := solvePhaseFix windows
  let dist := solveDistLoop windows weights usable (count + 1) start.1 start.2
  let fixed := dist.2
  let clamp := solveClamp windows dist.1
  let sizes := solveRedistribute windows weights fixed clamp.1 clamp.2.1 clamp.2.2
  let floored := sizes.map (fun s => max s 1)
  (List.range count).map (fun i =>
    let size := floored.getD i 0
    let w := windows.getD i winDefault
    let was_constrained := fixed.getD i false &&
      (decide (some size = w.max_size.map (fun m => min size m)) ||
        decide (|size - w.min_size| < F64_EPSILON))
    { size := size, was_constrained := was_constrained })

/-- Mirrors `solve_sizes`. -/
def solve_sizes (windows : List WindowInput) (available gap : ℚ) : List WindowOutput :=
  let count := windows.length
  if count = 0 then []
  else
    let usable := available - gap * max ((count:ℚ) - 1) 0
    let total_min := (windows.map (fun w => w.min_size)).sum
    if usable ≤ 0 ∨ usable < total_min then solveFallback windows usable
    else solveMain windows usable

/-! ## Geometry

CoreGraphics geometry over `ℚ`.  `CGRect.contains` follows
`CGRectContainsPoint` (half-open on the max edges); `CGSize.contains` is
from `crate::sys::geometry`, which is not among the provided sources.
-/

structure CGPoint where
  x : ℚ
  y : ℚ
deriving DecidableEq, Repr

structure CGSize where
  width : ℚ
  height : ℚ
deriving DecidableEq, Repr

structure CGRect where
  origin : CGPoint
  size : CGSize
deriving DecidableEq, Repr

/-- Point containment, as `CGRectContainsPoint`. -/
def CGRect.contains (r : CGRect) (p : CGPoint) : Bool :=
  decide (r.origin.x ≤ p.x) && decide (p.x < r.origin.x + r.size.width) &&
    decide (r.origin.y ≤ p.y) && decide (p.y < r.origin.y + r.size.height)

/-- Modelled from the spec: `CGSize::contains` of `sys::geometry` (missing
from the provided sources); a size falls within the screen bounds iff both
dimensions fit. -/
def CGSize.contains (a b : CGSize) : Bool :=
  decide (b.width ≤ a.width) && decide (b.height ≤ a.height)

/-! ## Interactive resize edge detection (src/actor/layout.rs) -/

def ResizeEdge.LEFT : ℕ := 1
def ResizeEdge.RIGHT : ℕ := 2
def ResizeEdge.TOP : ℕ := 4
def ResizeEdge.BOTTOM : ℕ := 8

def RESIZE_EDGE_THRESHOLD : ℚ := 8

/-- The final two statements of `detect_edges`: if both opposing edges of
an axis are set (window too small for edge detection), disable that axis.
Rust's `!mask` complement on `u8` is `255 ^^^ mask`. -/
def clearOpposingEdges (e : ℕ) : ℕ :=
  let e5 := if e &&& ResizeEdge.LEFT ≠ 0 ∧ e &&& ResizeEdge.RIGHT ≠ 0 then
      e &&& (255 ^^^ (ResizeEdge.LEFT ||| ResizeEdge.RIGHT)) else e
  if e5 &&& ResizeEdge.TOP ≠ 0 ∧ e5 &&& ResizeEdge.BOTTOM ≠ 0 then
    e5 &&& (255 ^^^ (ResizeEdge.TOP ||| ResizeEdge.BOTTOM)) else e5

/-- Mirrors `detect_edges`; the `u8` edge mask is a natural number below 16. -/
def detect_edges (point : CGPoint) (frame : CGRect) : ℕ :=
  let threshold := RESIZE_EDGE_THRESHOLD
  let expanded : CGRect :=
    { origin := { x := frame.origin.x - threshold, y := frame.origin.y - threshold }
      size := { width := frame.size.width + threshold * 2
                height := frame.size.height + threshold * 2 } }
  if !(expanded.contains point) then 0
  else
    let inner : CGRect :=
      { origin := { x := frame.origin.x + threshold, y := frame.origin.y + threshold }
        size := { width := max (frame.size.width - threshold * 2) 0
                  height := max (frame.size.height - threshold * 2) 0 } }
    if inner.contains point then 0
    else
      let e0 : ℕ := 0
      let e1 := if point.x < frame.origin.x + threshold then e0 ||| ResizeEdge.LEFT else e0
      let e2 := if frame.origin.x + frame.size.width - threshold < point.x then
          e1 ||| ResizeEdge.RIGHT else e1
      let e3 := if point.y < frame.origin.y + threshold then e2 ||| ResizeEdge.TOP else e2
      let e4 := if frame.origin.y + frame.size.height - threshold < point.y then
          e3 ||| ResizeEdge.BOTTOM else e3
      clearOpposingEdges e4

/-! ## WindowResized handling (src/actor/layout.rs, handle_event)

The per-screen decision taken by the `WindowResized` arm for a window whose
node was found in the space's layout.  The tree mutations themselves are
summarised by the chosen action.
-/

inductive ResizeAction where
  | ignore
  | setFullscreen (value : Bool)
  | setFrameFromResize
deriving DecidableEq, Repr

/-- Mirrors the body of the `for (space, screen) in screens` loop of the
`WindowResized` arm, given whether the node is currently fullscreen. -/
def windowResizedAction (is_fullscreen : Bool) (old_frame new_frame screen : CGRect) :
    ResizeAction :=
  if !(screen.size.contains old_frame.size) || !(screen.size.contains new_frame.size) then
    .ignore
  else if new_frame = screen then .setFullscreen true
  else if is_fullscreen then .setFullscreen false
  else .setFrameFromResize

/-! ## Per-node layout info and its event-driven maintenance
(src/model/size.rs)

`slotmap::SecondaryMap<NodeId, LayoutInfo>` is modelled as a total function
from node ids; absent entries read as the default info (insertion on
`AddedToForest` writes exactly that default, and removal restores it).
-/

inductive ContainerKind where
  | Horizontal
  | Vertical
  | Tabbed
  | Stacked
deriving DecidableEq, Repr

/-- Mirrors `ContainerKind::is_group`. -/
def ContainerKind.is_group : ContainerKind → Bool
  | .Stacked => true
  | .Tabbed => true
  | _ => false

structure LayoutInfo where
  size : ℚ
  total : ℚ
  kind : ContainerKind
  last_ungrouped_kind : ContainerKind
  is_fullscreen : Bool
deriving DecidableEq, Repr

/-- The `Default` instance of `LayoutInfo` (`ContainerKind` defaults to
`Horizontal`). -/
def LayoutInfo.default : LayoutInfo :=
  { size := 0, total := 0, kind := .Horizontal, last_ungrouped_kind := .Horizontal
    is_fullscreen := false }

/-- Point update of the info map. -/
def updInfo (info : ℕ → LayoutInfo) (n : ℕ) (g : LayoutInfo → LayoutInfo) (m : ℕ) :
    LayoutInfo :=
  if m = n then g (info m) else info m

/-- The operations of the `Size` index that touch `LayoutInfo`: the five
`TreeEvent` arms of `Size::handle_event` plus the mutating methods.  Node
and parent ids that the source obtains from the event or the node map are
explicit arguments here. -/
inductive SizeOp where
  | addedToForest (node : ℕ)
  | addedToParent (node parent : ℕ)
  | copied (src dest : ℕ)
  | removingFromParent (node parent : ℕ)
  | removedFromForest (node : ℕ)
  | setKind (node : ℕ) (kind : ContainerKind)
  | assumeSizeOf (newNode oldNode parent : ℕ)
  | takeShare (node fromNode : ℕ) (share : ℚ)
  | setFullscreen (node : ℕ) (value : Bool)
  | toggleFullscreen (node : ℕ)
deriving DecidableEq

/-- State transformer of each `Size` operation on the info map, mirroring
`Size::handle_event`, `set_kind`, `assume_size_of`, `take_share`,
`set_fullscreen` and `toggle_fullscreen`. -/
def SizeOp.apply : SizeOp → (ℕ → LayoutInfo) → (ℕ → LayoutInfo)
  | .addedToForest node, info => updInfo info node (fun _ => LayoutInfo.default)
  | .addedToParent node parent, info =>
      updInfo (updInfo info node (fun i => { i with size := 1 })) parent
        (fun i => { i with total := i.total + 1 })
  | .copied src dest, info => updInfo info dest (fun _ => info src)
  | .removingFromParent node parent, info =>
      updInfo info parent (fun i => { i with total := i.total - (info node).size })
  | .removedFromForest node, info => updInfo info node (fun _ => LayoutInfo.default)
  | .setKind node kind, info =>
      if !kind.is_group then
        updInfo (updInfo info node (fun i => { i with kind := kind })) node
          (fun i => { i with last_ungrouped_kind := kind })
      else updInfo info node (fun i => { i with kind := kind })
  | .assumeSizeOf newNode oldNode parent, info =>
      let step := updInfo info parent
        (fun i => { i with total := i.total - (info newNode).size })
      let oldSize := (step oldNode).size
      let step2 := updInfo step oldNode (fun i => { i with size := 0 })
      updInfo step2 newNode (fun i => { i with size := oldSize })
  | .takeShare node fromNode share, info =>
      let share := min share (info fromNode).size
      let share := max share (-(info node).size)
      let step := updInfo info fromNode (fun i => { i with size := i.size - share })
      updInfo step node (fun i => { i with size := i.size + share })
  | .setFullscreen node value, info =>
      updInfo info node (fun i => { i with is_fullscreen := value })
  | .toggleFullscreen node, info =>
      updInfo info node (fun i => { i with is_fullscreen := !i.is_fullscreen })

/-- C8's invariant: no stored `last_ungrouped_kind` is a group kind. -/
def LastUngroupedInv (info : ℕ → LayoutInfo) : Prop :=
  ∀ n, ((info n).last_ungrouped_kind).is_group = false

/-! ## Node map (children relation)

Modelled from the spec: the node arena (`tree.rs`, not among the provided
sources) is a forest of nodes with ordered children; adding a node appends
it to the parent's child list, removing deletes it there.  The `Size` index
reacts to the corresponding `TreeEvent`s with `SizeOp.addedToParent` and
`SizeOp.removingFromParent`.
-/

structure NodeMap where
  childrenOf : ℕ → List ℕ

/-- Modelled from the spec: linking a freshly created node as the last
child of `parent`. -/
def addChildMap (m : NodeMap) (parent node : ℕ) : NodeMap :=
  ⟨fun c => if c = parent then m.childrenOf c ++ [node] else m.childrenOf c⟩

/-- Modelled from the spec: unlinking `node` from `parent`'s child list. -/
def removeChildMap (m : NodeMap) (parent node : ℕ) : NodeMap :=
  ⟨fun c => if c = parent then (m.childrenOf c).erase node else m.childrenOf c⟩

/-- Sum of the `size` fields of a container's children. -/
def childSum (m : NodeMap) (info : ℕ → LayoutInfo) (c : ℕ) : ℚ :=
  ((m.childrenOf c).map (fun k => (info k).size)).sum

/-- C3's invariant: for every container, the child sizes sum to the stored
`total` within the accepted tolerance of `1e-4`. -/
def SumInv (m : NodeMap) (info : ℕ → LayoutInfo) : Prop :=
  ∀ c, |childSum m info c - (info c).total| < 1/10000

/-! ## Rectangle derivation (src/model/size.rs, Visitor)

The visitor walks one layout's subtree.  For the shallow embedding the
forest slice reachable from the visited root is an inductive tree carrying
the per-node `LayoutInfo` fields the visitor reads (`size`, `total`,
`kind`, `is_fullscreen`), the leaf window assignment, and the remembered
selected-child index (the `Selection` index, whose source module is not
provided, is modelled from the spec as the per-container remembered
child). `fullscreen_nodes.contains(node)` is the node's own flag, since
that list collects exactly the flagged nodes, and `fullscreen_nodes.is_empty()`
is a single boolean for the whole walk.
-/

structure WindowId where
  pid : ℤ
  idx : ℕ
deriving DecidableEq, Repr

inductive HorizontalPlacement where
  | Top
  | Bottom
deriving DecidableEq, Repr

inductive VerticalPlacement where
  | Left
  | Right
deriving DecidableEq, Repr

/-- The group-indicator configuration as consumed by `size.rs`
(`enable`, `bar_thickness`, placements); its declaration is not among the
provided sources, so the fields are taken from their uses. -/
structure GroupIndicators where
  enable : Bool
  bar_thickness : ℚ
  horizontal_placement : HorizontalPlacement
  vertical_placement : VerticalPlacement
deriving DecidableEq, Repr

def CGRect.ZERO : CGRect := { origin := { x := 0, y := 0 }, size := { width := 0, height := 0 } }

/-- Mirrors `size_with_group_indicator`: reserve space for the indicator
along the configured edge and return `(group_frame, indicator_frame)`. -/
def size_with_group_indicator (rect : CGRect) (container_kind : ContainerKind)
    (config : GroupIndicators) : CGRect × CGRect :=
  let thickness := config.bar_thickness
  match container_kind with
  | .Tabbed =>
      match config.horizontal_placement with
      | .Top =>
          let group_frame : CGRect :=
            { origin := { x := rect.origin.x, y := rect.origin.y + thickness }
              size := { width := rect.size.width, height := rect.size.height - thickness } }
          let indicator_frame : CGRect :=
            { origin := rect.origin
              size := { width := rect.size.width, height := thickness } }
          (group_frame, indicator_frame)
      | .Bottom =>
          let group_frame : CGRect :=
            { origin := rect.origin
              size := { width := rect.size.width, height := rect.size.height - thickness } }
          let indicator_frame : CGRect :=
            { origin := { x := rect.origin.x, y := rect.origin.y + group_frame.size.height }
              size := { width := rect.size.width, height := thickness } }
          (group_frame, indicator_frame)
  | .Stacked =>
      match config.vertical_placement with
      | .Left =>
          let group_frame : CGRect :=
            { origin := { x := rect.origin.x + thickness, y := rect.origin.y }
              size := { width := rect.size.width - thickness, height := rect.size.height } }
          let indicator_frame : CGRect :=
            { origin := rect.origin
              size := { width := thickness, height := rect.size.height } }
          (group_frame, indicator_frame)
      | .Right =>
          let group_frame : CGRect :=
            { origin := rect.origin
              size := { width := rect.size.width - thickness, height := rect.size.height } }
          let indicator_frame : CGRect :=
            { origin := { x := rect.origin.x + group_frame.size.width, y := rect.origin.y }
              size := { width := thickness, height := rect.size.height } }
          (group_frame, indicator_frame)
  | _ => (rect, CGRect.ZERO)

/-- The per-group record produced alongside the window frames (`GroupInfo`
in the source; the arena node id is not part of the inductive model). -/
structure GroupInfo where
  container_kind : ContainerKind
  indicator_frame : CGRect
  total_count : ℕ
  selected_index : ℕ
  is_visible : Bool
  is_selected : Bool
deriving DecidableEq, Repr

/-- Modelled from the spec: rectangle rounding to integer pixels
(`sys::geometry::Round`, not among the provided sources); origin and the
max corner round to the nearest integer, so the right edge of one child
matches the left edge of the next. -/
def roundRect (r : CGRect) : CGRect :=
  let x1 : ℚ := round r.origin.x
  let y1 : ℚ := round r.origin.y
  let x2 : ℚ := round (r.origin.x + r.size.width)
  let y2 : ℚ := round (r.origin.y + r.size.height)
  { origin := { x := x1, y := y1 }, size := { width := x2 - x1, height := y2 - y1 } }

/-- Right edge, as `rect.max().x`. -/
def CGRect.maxX (r : CGRect) : ℚ := r.origin.x + r.size.width

/-- Bottom edge, as `rect.max().y`. -/
def CGRect.maxY (r : CGRect) : ℚ := r.origin.y + r.size.height

/-- One layout subtree: leaves carry a window id, containers carry kind,
cached child total, the remembered selected-child index and children. -/
inductive LTree where
  | leaf (wid : WindowId) (size : ℚ) (is_fullscreen : Bool)
  | cont (kind : ContainerKind) (size : ℚ) (total : ℚ) (is_fullscreen : Bool)
      (sel : Option ℕ) (children : List LTree)

/-- The node's `size` share. -/
def LTree.size : LTree → ℚ
  | .leaf _ s _ => s
  | .cont _ s _ _ _ _ => s

/-- The node's fullscreen flag. -/
def LTree.is_fullscreen : LTree → Bool
  | .leaf _ _ fs => fs
  | .cont _ _ _ fs _ _ => fs

mutual

/-- Whether any node of the subtree is flagged fullscreen (the walk in
`get_sizes_and_groups` collecting `fullscreen_nodes` finds one). -/
def LTree.anyFullscreen : LTree → Bool
  | .leaf _ _ fs => fs
  | .cont _ _ _ fs _ children => fs || anyFullscreenList children

def anyFullscreenList : List LTree → Bool
  | [] => false
  | c :: rest => c.anyFullscreen || anyFullscreenList rest

end

mutual

/-- Mirrors `Visitor::visit_node`.  `noFS` is `fullscreen_nodes.is_empty()`
for the whole walk. -/
def visitNode (cfg : GroupIndicators) (screen : CGRect) (noFS : Bool) :
    LTree → CGRect → Bool → Bool → Bool → List (WindowId × CGRect) × List GroupInfo
  | .leaf wid _ fs, rect, _, _, _ =>
      ([(wid, if fs then screen else rect)], [])
  | .cont kind _ total fs selIdx children, rect0, path, pvis, sel =>
      let rect := if fs then screen else rect0
      match kind with
      | .Tabbed | .Stacked =>
          let frames := if cfg.enable then size_with_group_indicator rect kind cfg
            else (rect, CGRect.ZERO)
          let is_visible := path && (pvis || noFS || fs)
          let res := visitGroupChildren cfg screen noFS children frames.1 path is_visible sel
            selIdx 0
          let selected_index := match selIdx with
            | some i => if i < children.length then i else 0
            | none => 0
          (res.1, res.2 ++ [{
            container_kind := kind
            indicator_frame := frames.2
            total_count := children.length
            selected_index := selected_index
            is_visible := is_visible
            is_selected := sel }])
      | .Horizontal =>
          visitRow cfg screen noFS children rect total path pvis sel selIdx 0 rect.origin.x
      | .Vertical =>
          visitColumn cfg screen noFS children rect total path pvis sel selIdx 0 rect.origin.y

/-- The child loop of the `Tabbed | Stacked` arm: every child is visited
with the group frame; only the visibility-path and selection flags depend
on whether the child is the remembered selection. -/
def visitGroupChildren (cfg : GroupIndicators) (screen : CGRect) (noFS : Bool) :
    List LTree → CGRect → Bool → Bool → Bool → Option ℕ → ℕ →
    List (WindowId × CGRect) × List GroupInfo
  | [], _, _, _, _, _, _ => ([], [])
  | c :: rest, gf, path, vis, sel, selIdx, i =>
      let selected := selIdx == some i
      let r := visitNode cfg screen noFS c gf (path && selected) vis (sel && selected)
      let r2 := visitGroupChildren cfg screen noFS rest gf path vis sel selIdx (i + 1)
      (r.1 ++ r2.1, r.2 ++ r2.2)

/-- The `Horizontal` arm: partition the rectangle left to right in
`size/total` ratios, rounding, each child starting at the previous child's
rounded right edge. -/
def visitRow (cfg : GroupIndicators) (screen : CGRect) (noFS : Bool) :
    List LTree → CGRect → ℚ → Bool → Bool → Bool → Option ℕ → ℕ → ℚ →
    List (WindowId × CGRect) × List GroupInfo
  | [], _, _, _, _, _, _, _, _ => ([], [])
  | c :: rest, rect, total, path, pvis, sel, selIdx, i, x =>
      let ratio := c.size / total
      let childRect := roundRect
        { origin := { x := x, y := rect.origin.y }
          size := { width := rect.size.width * ratio, height := rect.size.height } }
      let r := visitNode cfg screen noFS c childRect path pvis (sel && (selIdx == some i))
      let r2 := visitRow cfg screen noFS rest rect total path pvis sel selIdx (i + 1)
        childRect.maxX
      (r.1 ++ r2.1, r.2 ++ r2.2)

/-- The `Vertical` arm, top to bottom. -/
def visitColumn (cfg : GroupIndicators) (screen : CGRect) (noFS : Bool) :
    List LTree → CGRect → ℚ → Bool → Bool → Bool → Option ℕ → ℕ → ℚ →
    List (WindowId × CGRect) × List GroupInfo
  | [], _, _, _, _, _, _, _, _ => ([], [])
  | c :: rest, rect, total, path, pvis, sel, selIdx, i, y =>
      let ratio := c.size / total
      let childRect := roundRect
        { origin := { x := rect.origin.x, y := y }
          size := { width := rect.size.width, height := rect.size.height * ratio } }
      let r := visitNode cfg screen noFS c childRect path pvis (sel && (selIdx == some i))
      let r2 := visitColumn cfg screen noFS rest rect total path pvis sel selIdx (i + 1)
        childRect.maxY
      (r.1 ++ r2.1, r.2 ++ r2.2)

end

/-- Mirrors `get_sizes_and_groups` composed with `Visitor::visit`: collect
the fullscreen information, then walk the root with the screen rectangle. -/
def calculateLayoutAndGroups (cfg : GroupIndicators) (screen : CGRect) (t : LTree) :
    List (WindowId × CGRect) × List GroupInfo :=
  let noFS := !t.anyFullscreen
  let parent_visible := t.is_fullscreen
  visitNode cfg screen noFS t screen true parent_visible true

/-! ## Command handling entry (src/actor/layout.rs, handle_command)

The entry of `handle_command`, down to the per-command dispatch: the debug
block (whose `self.layout(space)` call unwraps the mapping lookup), the
scroll-gate check, the `ToggleWindowFloating` branch that runs before the
guarded mapping lookup, and the guarded lookup itself.  Reaching the
per-command `match` with a valid mapping is the `dispatched` outcome; an
`unwrap` of a missing mapping is `panicked`.  The tree is summarised by
the set of windows it holds (enough for the mutations on these paths).
-/

inductive Direction where
  | Left
  | Right
  | Up
  | Down
deriving DecidableEq, Repr

inductive Orientation where
  | Horizontal
  | Vertical
deriving DecidableEq, Repr

inductive LayoutCommand where
  | NextLayout
  | PrevLayout
  | MoveFocus (direction : Direction)
  | Ascend
  | Descend
  | MoveNode (direction : Direction)
  | Split (orientation : Orientation)
  | Group (orientation : Orientation)
  | Ungroup
  | ToggleFocusFloating
  | ToggleWindowFloating
  | ToggleFullscreen
  | Resize (direction : Direction) (percent : ℚ)
  | CycleColumnWidth
  | ChangeLayoutKind
  | ToggleColumnTabbed
deriving DecidableEq, Repr

structure EventResponse where
  raise_windows : List WindowId
  focus_window : Option WindowId
deriving DecidableEq, Repr

/-- The `Default` response. -/
def EventResponse.default : EventResponse := { raise_windows := [], focus_window := none }

/-- The fields of `LayoutManager` read or written before the per-command
dispatch.  `layout_mapping` records which spaces have a mapping; the tree
is summarised by the windows it holds. -/
structure LayoutManagerState where
  scroll_enabled : Bool
  focused_window : Option WindowId
  last_floating_focus : Option WindowId
  floating_windows : List WindowId
  active_floating : List (ℕ × WindowId)
  tree_windows : List WindowId
  layout_mapping : ℕ → Bool

/-- Mirrors `LayoutManager::is_floating`. -/
def LayoutManagerState.is_floating (st : LayoutManagerState) : Bool :=
  match st.focused_window with
  | some focus => st.floating_windows.contains focus
  | none => false

/-- Set-like insertion for the window collections (`HashSet::insert`). -/
def insertWindow (l : List WindowId) (w : WindowId) : List WindowId :=
  if l.contains w then l else w :: l

def insertPair (l : List (ℕ × WindowId)) (p : ℕ × WindowId) : List (ℕ × WindowId) :=
  if l.contains p then l else p :: l

/-- Mirrors `LayoutManager::add_floating_window`. -/
def add_floating_window (st : LayoutManagerState) (wid : WindowId) (space : Option ℕ) :
    LayoutManagerState :=
  { st with
    active_floating := match space with
      | some s => insertPair st.active_floating (s, wid)
      | none => st.active_floating
    floating_windows := insertWindow st.floating_windows wid }

/-- Mirrors `LayoutManager::remove_floating_window`: with a space present,
the window is re-inserted into the tree after the selection (on this path
the mapping exists, so its own `layout(space)` unwrap cannot fire). -/
def remove_floating_window (st : LayoutManagerState) (wid : WindowId) (space : Option ℕ) :
    LayoutManagerState :=
  { st with
    tree_windows := match space with
      | some _ => insertWindow st.tree_windows wid
      | none => st.tree_windows
    active_floating := match space with
      | some s => st.active_floating.erase (s, wid)
      | none => st.active_floating
    floating_windows := st.floating_windows.erase wid }

inductive HandleOutcome where
  | panicked
  | returned (st : LayoutManagerState) (resp : EventResponse)
  | dispatched (st : LayoutManagerState)

/-- The entry of `handle_command` after the debug block: scroll-gate check,
`ToggleWindowFloating`, then the guarded mapping lookup before dispatch. -/
def handleCommandAfterEntry (st : LayoutManagerState) (space : Option ℕ)
    (cmd : LayoutCommand) : HandleOutcome :=
  if !st.scroll_enabled &&
      (cmd == .CycleColumnWidth || cmd == .ToggleColumnTabbed ||
        cmd == .ChangeLayoutKind) then
    .returned st EventResponse.default
  else if cmd == .ToggleWindowFloating then
    match st.focused_window with
    | none => .returned st EventResponse.default
    | some wid =>
        if st.is_floating then
          .returned { remove_floating_window st wid space with last_floating_focus := none }
            EventResponse.default
        else
          let st1 := add_floating_window st wid space
          let st2 := { st1 with tree_windows := st1.tree_windows.erase wid }
          .returned { st2 with last_floating_focus := some wid } EventResponse.default
  else
    match space with
    | none => .returned st EventResponse.default
    | some s =>
        if st.layout_mapping s then .dispatched st
        else .returned st EventResponse.default

/-- Mirrors the entry of `handle_command`: when a space is supplied, the
debug block's `self.layout(space)` (= `try_layout(space).unwrap()`) runs
first and panics when the space has no mapping. -/
def handle_command_entry (st : LayoutManagerState) (space : Option ℕ)
    (cmd : LayoutCommand) : HandleOutcome :=
  match space with
  | some s =>
      if st.layout_mapping s then handleCommandAfterEntry st (some s) cmd
      else .panicked
  | none => handleCommandAfterEntry st none cmd

end Glide

namespace Glide

/-! ## Theorems -/

/-- Axis-conflict freedom holds for the output of `clearOpposingEdges` on
any input mask. -/
lemma clearOpposingEdges_no_opposing (e : ℕ) :
    ¬(clearOpposingEdges e &&& ResizeEdge.LEFT ≠ 0 ∧
        clearOpposingEdges e &&& ResizeEdge.RIGHT ≠ 0) ∧
      ¬(clearOpposingEdges e &&& ResizeEdge.TOP ≠ 0 ∧
        clearOpposingEdges e &&& ResizeEdge.BOTTOM ≠ 0) := by
  have c1 : (252:ℕ) &&& 1 = 0 := by decide
  have c2 : (252:ℕ) &&& 2 = 0 := by decide
  have c3 : (243:ℕ) &&& 4 = 0 := by decide
  have c4 : (243:ℕ) &&& 8 = 0 := by decide
  have c5 : (243:ℕ) &&& 1 = 1 := by decide
  have c6 : (243:ℕ) &&& 2 = 2 := by decide
  rw [clearOpposingEdges]
  simp only [ResizeEdge.LEFT, ResizeEdge.RIGHT, ResizeEdge.TOP, ResizeEdge.BOTTOM]
  by_cases h1 : e &&& 1 ≠ 0 ∧ e &&& 2 ≠ 0
  · rw [if_pos h1]
    by_cases h2 : (e &&& (255 ^^^ (1 ||| 2))) &&& 4 ≠ 0 ∧
        (e &&& (255 ^^^ (1 ||| 2))) &&& 8 ≠ 0
    · rw [if_pos h2]
      constructor
      · simp [Nat.and_assoc, c1, c2, c3, c4, c5, c6]
      · simp [Nat.and_assoc, c1, c2, c3, c4, c5, c6]
    · rw [if_neg h2]
      constructor
      · simp [Nat.and_assoc, c1, c2]
      · exact h2
  · rw [if_neg h1]
    by_cases h2 : e &&& 4 ≠ 0 ∧ e &&& 8 ≠ 0
    · rw [if_pos h2]
      constructor
      · simpa [Nat.and_assoc, c5, c6] using h1
      · simp [Nat.and_assoc, c3, c4]
    · rw [if_neg h2]
      exact ⟨h1, h2⟩

/-- C9: `detect_edges` never reports both opposing edges of an axis: when
both would match, that axis is cleared from the result. -/
theorem detect_edges_no_opposing (point : CGPoint) (frame : CGRect) :
    ¬(detect_edges point frame &&& ResizeEdge.LEFT ≠ 0 ∧
        detect_edges point frame &&& ResizeEdge.RIGHT ≠ 0) ∧
      ¬(detect_edges point frame &&& ResizeEdge.TOP ≠ 0 ∧
        detect_edges point frame &&& ResizeEdge.BOTTOM ≠ 0) := by
  rw [detect_edges]
  dsimp only
  split
  · exact ⟨by decide, by decide⟩
  · split
    · exact ⟨by decide, by decide⟩
    · exact clearOpposingEdges_no_opposing _

/-- C5 counterexample: a resize event whose new frame equals the screen but
whose old frame is larger than the screen is ignored by the out-of-bounds
check, so the fullscreen flag is not set even though `new_frame == screen`. -/
theorem window_resized_fullscreen_counterexample :
    (let screen : CGRect := { origin := { x := 0, y := 0 }
                              size := { width := 100, height := 100 } }
     let old_frame : CGRect := { origin := { x := 0, y := 0 }
                                 size := { width := 200, height := 200 } }
     windowResizedAction false old_frame screen screen ≠ .setFullscreen true ∧
       windowResizedAction false old_frame screen screen = .ignore) := by
  constructor <;> decide

/-- C5 amended: if `new_frame` equals the screen rectangle and the old
frame's size also fits within the screen bounds, the action taken is to set
the node fullscreen. -/
theorem window_resized_sets_fullscreen (is_fullscreen : Bool)
    (old_frame new_frame screen : CGRect)
    (hold : screen.size.contains old_frame.size = true)
    (hnew : new_frame = screen) :
    windowResizedAction is_fullscreen old_frame new_frame screen = .setFullscreen true := by
  rw [windowResizedAction]
  have hc : screen.size.contains new_frame.size = true := by
    rw [hnew]
    simp [CGSize.contains]
  rw [hold, hc]
  simp [hnew]

/-- Witness for C5 (amended) at a concrete in-bounds resize. -/
theorem window_resized_sets_fullscreen_witness :
    windowResizedAction false
        { origin := { x := 0, y := 0 }, size := { width := 50, height := 50 } }
        { origin := { x := 0, y := 0 }, size := { width := 100, height := 100 } }
        { origin := { x := 0, y := 0 }, size := { width := 100, height := 100 } } =
      .setFullscreen true :=
  window_resized_sets_fullscreen false _ _ _ (by decide) rfl

/-- C8: the stored `last_ungrouped_kind` is never a group kind: the default
written when a node enters the forest is `Horizontal`, `set_kind` rewrites
it only for non-group kinds, and every `Size` operation preserves the
invariant. -/
theorem last_ungrouped_kind_never_group :
    (∀ (op : SizeOp) (info : ℕ → LayoutInfo),
        LastUngroupedInv info → LastUngroupedInv (op.apply info)) ∧
      (∀ (node : ℕ) (info : ℕ → LayoutInfo),
        (((SizeOp.addedToForest node).apply info) node).last_ungrouped_kind = .Horizontal) ∧
      (∀ (node : ℕ) (kind : ContainerKind) (info : ℕ → LayoutInfo),
        kind.is_group = true → ∀ n,
        (((SizeOp.setKind node kind).apply info) n).last_ungrouped_kind =
          (info n).last_ungrouped_kind) := by
  refine ⟨?_, ?_, ?_⟩
  · intro op info hinv n
    cases op <;>
      simp only [SizeOp.apply, updInfo] <;>
      (repeat' split) <;>
      first
        | rfl
        | exact hinv _
        | (simp only [updInfo] <;> (repeat' split) <;>
            first
              | exact hinv _
              | simp_all)
  · intro node info
    simp [SizeOp.apply, updInfo, LayoutInfo.default]
  · intro node kind info hg n
    have hng : (!kind.is_group) = false := by rw [hg]; rfl
    simp only [SizeOp.apply, hng, Bool.false_eq_true, if_false, updInfo]
    split <;> rfl

/-- Witness for C8 at a concrete operation and state. -/
theorem last_ungrouped_kind_never_group_witness :
    LastUngroupedInv ((SizeOp.setKind 3 .Tabbed).apply (fun _ => LayoutInfo.default)) ∧
      (((SizeOp.addedToForest 5).apply (fun _ => LayoutInfo.default)) 5).last_ungrouped_kind =
        .Horizontal ∧
      (((SizeOp.setKind 3 .Tabbed).apply (fun _ => LayoutInfo.default)) 3).last_ungrouped_kind =
        ((fun _ => LayoutInfo.default) 3).last_ungrouped_kind :=
  ⟨last_ungrouped_kind_never_group.1 (SizeOp.setKind 3 .Tabbed) (fun _ => LayoutInfo.default)
      (fun _ => rfl),
    last_ungrouped_kind_never_group.2.1 5 (fun _ => LayoutInfo.default),
    last_ungrouped_kind_never_group.2.2 3 .Tabbed (fun _ => LayoutInfo.default) rfl 3⟩

/-- Folds whose step either returns the accumulator or a `List.set` of it
preserve length. -/
lemma foldl_length_const {β : Type} (l : List β) (f : List ℚ → β → List ℚ)
    (h : ∀ acc b, (f acc b).length = acc.length) (init : List ℚ) :
    (l.foldl f init).length = init.length := by
  induction l generalizing init with
  | nil => rfl
  | cons x xs ih => rw [List.foldl_cons, ih, h]

/-- The initial fixing pass produces `count`-length vectors. -/
lemma solvePhaseFix_length (windows : List WindowInput) :
    (solvePhaseFix windows).1.length = windows.length := by
  rw [solvePhaseFix]
  have : ∀ (init : List ℚ × List Bool),
      ((List.range windows.length).foldl (fun acc i =>
        let w := windows.getD i winDefault
        match w.fixed_size with
        | some fs =>
            let clamped := match w.max_size with
              | some mx => min (max fs w.min_size) mx
              | none => max fs w.min_size
            (acc.1.set i clamped, acc.2.set i true)
        | none =>
            match w.max_size with
            | some m => if m ≤ w.min_size then (acc.1.set i w.min_size, acc.2.set i true)
              else acc
            | none => acc) init).1.length = init.1.length := by
    intro init
    induction List.range windows.length generalizing init with
    | nil => rfl
    | cons x xs ih =>
        rw [List.foldl_cons, ih]
        dsimp only
        split
        · simp
        · split
          · split <;> simp
          · rfl
  rw [this]
  exact List.length_replicate _ _

/-- The fueled distribution loop preserves the length of the size vector. -/
lemma solveDistLoop_length (windows : List WindowInput) (weights : List ℚ) (usable : ℚ)
    (fuel : ℕ) (sizes : List ℚ) (fixed : List Bool) :
    (solveDistLoop windows weights usable fuel sizes fixed).1.length = sizes.length := by
  induction fuel generalizing sizes fixed with
  | zero => rfl
  | succ n ih =>
      rw [solveDistLoop]
      split
      · rfl
      · split
        · rw [ih]
          exact List.length_set _ _ _
        · refine foldl_length_const _ _ (fun acc b => ?_) sizes
          dsimp only
          split
          · rfl
          · exact List.length_set _ _ _

/-- The clamping pass preserves the length of the size vector. -/
lemma solveClamp_length (windows : List WindowInput) (sizes : List ℚ) :
    (solveClamp windows sizes).1.length = sizes.length := by
  rw [solveClamp]
  have : ∀ (init : List ℚ × List Bool × ℚ),
      ((List.range windows.length).foldl (fun acc i =>
        match (windows.getD i winDefault).max_size with
        | some m =>
            if m < acc.1.getD i 0 then
              (acc.1.set i m, acc.2.1.set i true, acc.2.2 + (acc.1.getD i 0 - m))
            else acc
        | none => acc) init).1.length = init.1.length := by
    intro init
    induction List.range windows.length generalizing init with
    | nil => rfl
    | cons x xs ih =>
        rw [List.foldl_cons, ih]
        split <;> simp
        split <;> simp
  exact this _

/-- Redistribution preserves the length of the size vector. -/
lemma solveRedistribute_length (windows : List WindowInput) (weights : List ℚ)
    (fixed : List Bool) (sizes : List ℚ) (max_fixed : List Bool) (excess : ℚ) :
    (solveRedistribute windows weights fixed sizes max_fixed excess).length = sizes.length := by
  rw [solveRedistribute]
  dsimp only
  split
  · split
    · refine foldl_length_const _ _ (fun acc b => ?_) sizes
      dsimp only
      split
      · exact List.length_set _ _ _
      · rfl
    · rfl
  · rfl

/-- C6: `solve_sizes` returns exactly one output per input descriptor, and
every returned size is at least 1. -/
theorem solve_sizes_shape (windows : List WindowInput) (available gap : ℚ) :
    (solve_sizes windows available gap).length = windows.length ∧
      ∀ o ∈ solve_sizes windows available gap, 1 ≤ o.size := by
  rw [solve_sizes]
  by_cases hc : windows.length = 0
  · rw [if_pos hc]
    exact ⟨hc.symm, by simp⟩
  · rw [if_neg hc]
    dsimp only
    split
    · constructor
      · rw [solveFallback]
        simp
      · intro o ho
        rw [solveFallback] at ho
        simp only [List.mem_map, List.mem_range] at ho
        obtain ⟨i, _, rfl⟩ := ho
        dsimp only
        split
        · exact le_max_right _ _
        · exact le_refl 1
    · constructor
      · rw [solveMain]
        simp
      · intro o ho
        rw [solveMain] at ho
        simp only [List.mem_map, List.mem_range] at ho
        obtain ⟨i, hi, rfl⟩ := ho
        dsimp only
        set weights := solveWeights windows with hw
        set start := solvePhaseFix windows with hs
        set dist := solveDistLoop windows weights
          (available - gap * max ((windows.length:ℚ) - 1) 0) (windows.length + 1)
          start.1 start.2 with hdist
        set sizes := solveRedistribute windows weights dist.2 (solveClamp windows dist.1).1
          (solveClamp windows dist.1).2.1 (solveClamp windows dist.1).2.2 with hsz
        have hlen : sizes.length = windows.length := by
          rw [hsz, solveRedistribute_length, solveClamp_length, hdist, solveDistLoop_length,
            hs, solvePhaseFix_length]
        have hi' : i < (sizes.map (fun s => max s 1)).length := by
          rw [List.length_map, hlen]
          exact hi
        rw [List.getD_eq_getElem _ _ hi', List.getElem_map]
        exact le_max_right _ _

/-- A spring sampled at its own start time yields its initial value. -/
lemma SpringAnimation.value_at_start_time (s : SpringAnimation) :
    s.value_at s.start_time = s.initial_value := by
  rw [SpringAnimation.value_at]
  simp only [SpringAnimation.elapsed, sub_self, max_self]
  split <;> simp

/-- A spring sampled at its own start time yields its initial velocity
(for the underdamped branch this needs a nonzero damped frequency). -/
lemma SpringAnimation.velocity_at_start_time (s : SpringAnimation)
    (h : 1 ≤ s.zeta ∨ s.omega_d ≠ 0) :
    s.velocity_at s.start_time = s.initial_velocity := by
  rw [SpringAnimation.velocity_at]
  simp only [SpringAnimation.elapsed, sub_self, max_self]
  split
  · simp
  · rename_i hz
    rcases h with h | h
    · exact absurd h hz
    · simp only [mul_zero, Real.sin_zero, Real.cos_zero, Real.exp_zero, one_mul, mul_one,
        mul_zero, add_zero, zero_mul, neg_zero, zero_add, neg_mul]
      rw [div_mul_cancel₀ _ h]
      ring

/-- C7: retargeting a well-formed spring at instant `now` preserves the
sampled value and velocity at `now` and sets the target to `T`. -/
theorem spring_retarget_continuity (s : SpringAnimation) (hwf : s.WellFormed)
    (T now : ℝ) :
    (s.retarget T now).value_at now = s.value_at now ∧
      (s.retarget T now).velocity_at now = s.velocity_at now ∧
      (s.retarget T now).target_value = T := by
  obtain ⟨hd, hn, hr, hz0⟩ := hwf
  refine ⟨?_, ?_, rfl⟩
  · have h := SpringAnimation.value_at_start_time (s.retarget T now)
    simpa [SpringAnimation.retarget] using h
  · have hor : 1 ≤ (s.retarget T now).zeta ∨ (s.retarget T now).omega_d ≠ 0 := by
      by_cases hzz : 1 ≤ s.zeta
      · exact Or.inl hzz
      · refine Or.inr ?_
        have hzlt : s.zeta < 1 := not_le.mp hzz
        have homega_n : 0 < s.omega_n := by
          rw [hn]
          positivity
        have h1 : 0 < 1 - s.zeta * s.zeta := by nlinarith
        have hsq : (0:ℝ) < Real.sqrt (max (1 - s.zeta * s.zeta) 0) :=
          Real.sqrt_pos.mpr (lt_max_of_lt_left h1)
        show s.omega_d ≠ 0
        rw [hd]
        positivity
    have h := SpringAnimation.velocity_at_start_time (s.retarget T now) hor
    simpa [SpringAnimation.retarget] using h

/-- Witness for C7 at a concrete spring built by the constructor. -/
theorem spring_retarget_continuity_witness :
    ((SpringAnimation.new 0 100 0 (1/2) 1 0).retarget 200 0).target_value = 200 ∧
      ((SpringAnimation.new 0 100 0 (1/2) 1 0).retarget 200 0).value_at 0 =
        (SpringAnimation.new 0 100 0 (1/2) 1 0).value_at 0 := by
  have hwf : (SpringAnimation.new 0 100 0 (1/2) 1 0).WellFormed := by
    refine ⟨rfl, rfl, by norm_num [SpringAnimation.new], by norm_num [SpringAnimation.new]⟩
  have h := spring_retarget_continuity (SpringAnimation.new 0 100 0 (1/2) 1 0) hwf 200 0
  exact ⟨h.2.2, h.1⟩

/-- C10: accumulating scroll with a non-positive column-width threshold
returns `none` and leaves the entire viewport state (in particular the
accumulated scroll progress) unchanged. -/
theorem accumulate_scroll_nonpositive_threshold (vp : ViewportState)
    (delta avg_column_width : ℝ) (h : avg_column_width ≤ 0) :
    vp.accumulate_scroll delta avg_column_width = (none, vp) := by
  rw [ViewportState.accumulate_scroll, if_pos h]

/-- Witness for C10 at a concrete viewport and threshold. -/
theorem accumulate_scroll_nonpositive_threshold_witness :
    (ViewportState.new 1920).accumulate_scroll 3 (-2) = (none, ViewportState.new 1920) :=
  accumulate_scroll_nonpositive_threshold (ViewportState.new 1920) 3 (-2) (by norm_num)

/-- Projection facts for the record update at the top of
`ensure_column_visible`. -/
lemma ViewportState.target_offset_set (vp : ViewportState) (idx : ℕ) (b : Bool) :
    ({ vp with active_column_index := idx, user_scrolling := b } :
      ViewportState).target_offset = vp.target_offset := rfl

lemma ViewportState.screen_width_set (vp : ViewportState) (idx : ℕ) (b : Bool) :
    ({ vp with active_column_index := idx, user_scrolling := b } :
      ViewportState).screen_width = vp.screen_width := rfl

lemma ViewportState.scroll_set (vp : ViewportState) (idx : ℕ) (b : Bool) :
    ({ vp with active_column_index := idx, user_scrolling := b } :
      ViewportState).scroll = vp.scroll := rfl

/-- C4 counterexample: with center mode `Always`, a current target of `0`,
`column_x = 3/10` and `column_width = screen_width = 0`, the new offset
`3/10` is within `0.5` of the current target, and the code leaves the
target at `0` rather than snapping it to the new offset as claimed. -/
theorem ensure_column_visible_no_snap_counterexample :
    |((3:ℝ)/10 + 0 / 2 - (ViewportState.new 0).screen_width / 2) -
        (ViewportState.new 0).target_offset| ≤ 1/2 ∧
      ((ViewportState.new 0).ensure_column_visible 1 (3/10) 0 .Always 0 0).target_offset ≠
        (3:ℝ)/10 + 0 / 2 - (ViewportState.new 0).screen_width / 2 := by
  have habs : |(3:ℝ)/10| = 3/10 := abs_of_nonneg (by norm_num)
  constructor
  · norm_num [ViewportState.new, ViewportState.target_offset, ScrollState.target, habs]
  · norm_num [ViewportState.ensure_column_visible, ViewportState.new,
      ViewportState.target_offset, ScrollState.target, habs]

/-- C4 amended: with center mode `Always`, the new offset is
`column_x + column_width/2 − screen_width/2`; if it differs from the
current target by more than `0.5`, the viewport animates toward it (the
scroll state becomes a spring whose target is the new offset); otherwise
the scroll state is left entirely unchanged (the target stays at the
current target, not at the new offset). -/
theorem ensure_column_visible_always (vp : ViewportState) (idx : ℕ)
    (column_x column_width gap now : ℝ) :
    (1/2 < |(column_x + column_width / 2 - vp.screen_width / 2) - vp.target_offset| →
      (vp.ensure_column_visible idx column_x column_width .Always gap now).target_offset =
          column_x + column_width / 2 - vp.screen_width / 2 ∧
        ∃ sp, (vp.ensure_column_visible idx column_x column_width .Always gap now).scroll =
            .Animating sp ∧
          sp.target_value = column_x + column_width / 2 - vp.screen_width / 2) ∧
    (|(column_x + column_width / 2 - vp.screen_width / 2) - vp.target_offset| ≤ 1/2 →
      (vp.ensure_column_visible idx column_x column_width .Always gap now).scroll =
        vp.scroll) := by
  constructor
  · intro h
    simp only [ViewportState.ensure_column_visible, ViewportState.target_offset_set,
      ViewportState.screen_width_set]
    rw [if_pos h]
    cases hsc : vp.scroll with
    | Static v =>
        constructor
        · simp [ViewportState.animate_to, ViewportState.scroll_set, hsc,
            ViewportState.target_offset, ScrollState.target, SpringAnimation.with_defaults,
            SpringAnimation.new, SpringAnimation.target]
        · refine ⟨SpringAnimation.with_defaults v
            (column_x + column_width / 2 - vp.screen_width / 2) now, ?_, rfl⟩
          simp [ViewportState.animate_to, ViewportState.scroll_set, hsc]
    | Animating sp =>
        constructor
        · simp [ViewportState.animate_to, ViewportState.scroll_set, hsc,
            ViewportState.target_offset, ScrollState.target, SpringAnimation.retarget,
            SpringAnimation.target]
        · refine ⟨sp.retarget (column_x + column_width / 2 - vp.screen_width / 2) now, ?_, rfl⟩
          simp [ViewportState.animate_to, ViewportState.scroll_set, hsc]
  · intro h
    simp only [ViewportState.ensure_column_visible, ViewportState.target_offset_set,
      ViewportState.screen_width_set]
    rw [if_neg (not_lt.mpr h)]

/-- Witness for C4 (amended) at a concrete viewport, exercising the
animate branch. -/
theorem ensure_column_visible_always_witness :
    ((ViewportState.new 0).ensure_column_visible 2 100 0 .Always 0 0).target_offset =
        (100:ℝ) + 0 / 2 - (ViewportState.new 0).screen_width / 2 ∧
      ∃ sp, ((ViewportState.new 0).ensure_column_visible 2 100 0 .Always 0 0).scroll =
          .Animating sp ∧
        sp.target_value = (100:ℝ) + 0 / 2 - (ViewportState.new 0).screen_width / 2 :=
  (ensure_column_visible_always (ViewportState.new 0) 2 100 0 0 0).1
    (by norm_num [ViewportState.new, ViewportState.target_offset, ScrollState.target])

/-- Summing a mapped list after a `+s` update at `a` and a `-s` update at
`b` shifts the sum by the difference of the occurrence counts times `s`. -/
lemma sum_map_update_two (l : List ℕ) (f g : ℕ → ℚ) (a b : ℕ) (s : ℚ) (hab : a ≠ b)
    (hga : g a = f a + s) (hgb : g b = f b - s)
    (hother : ∀ k, k ≠ a → k ≠ b → g k = f k) :
    (l.map g).sum = (l.map f).sum + (l.count a : ℚ) * s - (l.count b : ℚ) * s := by
  induction l with
  | nil => simp
  | cons x xs ih =>
      rcases eq_or_ne x a with hxa | hxa
      · subst hxa
        rw [List.map_cons, List.sum_cons, List.map_cons, List.sum_cons, ih, hga,
          List.count_cons_self, List.count_cons_of_ne hab.symm]
        push_cast
        ring
      · rcases eq_or_ne x b with hxb | hxb
        · subst hxb
          rw [List.map_cons, List.sum_cons, List.map_cons, List.sum_cons, ih, hgb,
            List.count_cons_self, List.count_cons_of_ne hab]
          push_cast
          ring
        · rw [List.map_cons, List.sum_cons, List.map_cons, List.sum_cons, ih,
            hother x hxa hxb, List.count_cons_of_ne hxa.symm, List.count_cons_of_ne hxb.symm]
          ring

/-- Reading the updated entry. -/
lemma updInfo_same (info : ℕ → LayoutInfo) (n : ℕ) (g : LayoutInfo → LayoutInfo) :
    updInfo info n g n = g (info n) := by
  simp [updInfo]

/-- Reading any other entry. -/
lemma updInfo_other (info : ℕ → LayoutInfo) (n : ℕ) (g : LayoutInfo → LayoutInfo) (k : ℕ)
    (h : k ≠ n) : updInfo info n g k = info k := by
  simp [updInfo, h]

/-- Erasing one occurrence of a member removes its contribution from the
mapped sum. -/
lemma sum_map_erase (l : List ℕ) (f : ℕ → ℚ) (a : ℕ) (ha : a ∈ l) :
    ((l.erase a).map f).sum = (l.map f).sum - f a := by
  induction l with
  | nil => cases ha
  | cons x xs ih =>
      rcases eq_or_ne x a with h | h
      · subst h
        rw [List.erase_cons_head, List.map_cons, List.sum_cons]
        ring
      · rw [List.erase_cons_tail, List.map_cons, List.sum_cons, List.map_cons, List.sum_cons,
          ih (by
            rcases List.mem_cons.mp ha with h' | h'
            · exact absurd h'.symm h
            · exact h')]
        · ring
        · simp [h]

/-- C3: the child-size/total bookkeeping of the `Size` index.  The empty
forest satisfies the 1e-4 sum invariant, and each of the three operations
preserves it: adding a child sets its size to 1 and bumps the parent's
total by 1; removing a child subtracts exactly its size from the parent's
total; `take_share` moves share between two siblings, leaving the sum of
their sizes (and every container's child sum) unchanged. -/
theorem size_sum_invariant :
    SumInv ⟨fun _ => []⟩ (fun _ => LayoutInfo.default) ∧
      (∀ (m : NodeMap) (info : ℕ → LayoutInfo) (parent node : ℕ),
        SumInv m info → (∀ c, node ∉ m.childrenOf c) → node ≠ parent →
        SumInv (addChildMap m parent node) ((SizeOp.addedToParent node parent).apply info) ∧
          (((SizeOp.addedToParent node parent).apply info) node).size = 1 ∧
          (((SizeOp.addedToParent node parent).apply info) parent).total =
            (info parent).total + 1) ∧
      (∀ (m : NodeMap) (info : ℕ → LayoutInfo) (parent node : ℕ),
        SumInv m info → node ∈ m.childrenOf parent →
        SumInv (removeChildMap m parent node)
            ((SizeOp.removingFromParent node parent).apply info) ∧
          (((SizeOp.removingFromParent node parent).apply info) parent).total =
            (info parent).total - (info node).size) ∧
      (∀ (m : NodeMap) (info : ℕ → LayoutInfo) (node fromNode : ℕ) (share : ℚ),
        SumInv m info → node ≠ fromNode →
        (∀ c, (m.childrenOf c).count node = (m.childrenOf c).count fromNode) →
        SumInv m ((SizeOp.takeShare node fromNode share).apply info) ∧
          (((SizeOp.takeShare node fromNode share).apply info) node).size +
            (((SizeOp.takeShare node fromNode share).apply info) fromNode).size =
            (info node).size + (info fromNode).size) := by
  refine ⟨?_, ?_, ?_, ?_⟩
  · intro c
    norm_num [childSum, LayoutInfo.default]
  · intro m info parent node hinv hfresh hnp
    have hsz1 : (((SizeOp.addedToParent node parent).apply info) node).size = 1 := by
      simp only [SizeOp.apply]
      simp [updInfo_same, updInfo_other _ _ _ _ hnp]
    have hszk : ∀ k, k ≠ node →
        (((SizeOp.addedToParent node parent).apply info) k).size = (info k).size := by
      intro k hk
      simp only [SizeOp.apply]
      rcases eq_or_ne k parent with rfl | hkp
      · simp [updInfo_same, updInfo_other _ _ _ _ hk]
      · simp [updInfo_other _ _ _ _ hk, updInfo_other _ _ _ _ hkp]
    have htotp : (((SizeOp.addedToParent node parent).apply info) parent).total =
        (info parent).total + 1 := by
      simp only [SizeOp.apply]
      simp [updInfo_same, updInfo_other _ _ _ _ (Ne.symm hnp)]
    have htotk : ∀ k, k ≠ parent →
        (((SizeOp.addedToParent node parent).apply info) k).total = (info k).total := by
      intro k hk
      simp only [SizeOp.apply]
      rcases eq_or_ne k node with rfl | hkn
      · simp [updInfo_same, updInfo_other _ _ _ _ hk]
      · simp [updInfo_other _ _ _ _ hk, updInfo_other _ _ _ _ hkn]
    refine ⟨?_, hsz1, htotp⟩
    intro c
    rcases eq_or_ne c parent with hc | hc
    · subst hc
      have hchildren : (addChildMap m c node).childrenOf c = m.childrenOf c ++ [node] := by
        simp [addChildMap]
      rw [childSum, hchildren, List.map_append, List.sum_append]
      have hcongr : (m.childrenOf c).map
          (fun k => (((SizeOp.addedToParent node c).apply info) k).size) =
          (m.childrenOf c).map (fun k => (info k).size) :=
        List.map_congr_left (fun k hk => hszk k (fun h => hfresh c (h ▸ hk)))
      rw [hcongr, htotp]
      simp only [List.map_cons, List.map_nil, List.sum_cons, List.sum_nil, hsz1]
      have hbase := hinv c
      rw [childSum] at hbase
      calc |((m.childrenOf c).map (fun k => (info k).size)).sum + (1 + 0) -
            ((info c).total + 1)|
          = |((m.childrenOf c).map (fun k => (info k).size)).sum - (info c).total| := by
            ring_nf
        _ < 1/10000 := hbase
    · have hchildren : (addChildMap m parent node).childrenOf c = m.childrenOf c := by
        simp [addChildMap, hc]
      rw [childSum, hchildren]
      have hcongr : (m.childrenOf c).map
          (fun k => (((SizeOp.addedToParent node parent).apply info) k).size) =
          (m.childrenOf c).map (fun k => (info k).size) :=
        List.map_congr_left (fun k hk => hszk k (fun h => hfresh c (h ▸ hk)))
      rw [hcongr, htotk c hc]
      exact hinv c
  · intro m info parent node hinv hmem
    have hszk : ∀ k,
        (((SizeOp.removingFromParent node parent).apply info) k).size = (info k).size := by
      intro k
      simp only [SizeOp.apply]
      rcases eq_or_ne k parent with rfl | hkp
      · simp [updInfo_same]
      · simp [updInfo_other _ _ _ _ hkp]
    have htotp : (((SizeOp.removingFromParent node parent).apply info) parent).total =
        (info parent).total - (info node).size := by
      simp only [SizeOp.apply]
      simp [updInfo_same]
    have htotk : ∀ k, k ≠ parent →
        (((SizeOp.removingFromParent node parent).apply info) k).total = (info k).total := by
      intro k hk
      simp only [SizeOp.apply]
      simp [updInfo_other _ _ _ _ hk]
    have hcongr : ∀ (l : List ℕ),
        l.map (fun k => (((SizeOp.removingFromParent node parent).apply info) k).size) =
        l.map (fun k => (info k).size) :=
      fun l => List.map_congr_left (fun k _ => hszk k)
    refine ⟨?_, htotp⟩
    intro c
    rcases eq_or_ne c parent with hc | hc
    · subst hc
      have hchildren : (removeChildMap m c node).childrenOf c =
          (m.childrenOf c).erase node := by
        simp [removeChildMap]
      rw [childSum, hchildren, hcongr, sum_map_erase _ _ _ hmem, htotp]
      have hbase := hinv c
      rw [childSum] at hbase
      calc |((m.childrenOf c).map (fun k => (info k).size)).sum - (info node).size -
            ((info c).total - (info node).size)|
          = |((m.childrenOf c).map (fun k => (info k).size)).sum - (info c).total| := by
            ring_nf
        _ < 1/10000 := hbase
    · have hchildren : (removeChildMap m parent node).childrenOf c = m.childrenOf c := by
        simp [removeChildMap, hc]
      rw [childSum, hchildren, hcongr, htotk c hc]
      exact hinv c
  · intro m info node fromNode share hinv hne hcnt
    set s := max (min share (info fromNode).size) (-(info node).size) with hs
    have hsza : (((SizeOp.takeShare node fromNode share).apply info) node).size =
        (info node).size + s := by
      simp only [SizeOp.apply]
      rw [← hs]
      simp [updInfo_same, updInfo_other _ _ _ _ hne]
    have hszb : (((SizeOp.takeShare node fromNode share).apply info) fromNode).size =
        (info fromNode).size - s := by
      simp only [SizeOp.apply]
      rw [← hs]
      simp [updInfo_same, updInfo_other _ _ _ _ (Ne.symm hne)]
    have hszk : ∀ k, k ≠ node → k ≠ fromNode →
        (((SizeOp.takeShare node fromNode share).apply info) k).size = (info k).size := by
      intro k hk1 hk2
      simp only [SizeOp.apply]
      simp [updInfo_other _ _ _ _ hk1, updInfo_other _ _ _ _ hk2]
    have htotk : ∀ k,
        (((SizeOp.takeShare node fromNode share).apply info) k).total = (info k).total := by
      intro k
      simp only [SizeOp.apply]
      rcases eq_or_ne k node with rfl | hk1
      · rcases eq_or_ne k fromNode with rfl | hk2
        · simp [updInfo_same]
        · simp [updInfo_same, updInfo_other _ _ _ _ hk2]
      · rcases eq_or_ne k fromNode with rfl | hk2
        · simp [updInfo_same, updInfo_other _ _ _ _ hk1]
        · simp [updInfo_other _ _ _ _ hk1, updInfo_other _ _ _ _ hk2]
    constructor
    · intro c
      rw [childSum,
        sum_map_update_two (m.childrenOf c) (fun k => (info k).size)
          (fun k => (((SizeOp.takeShare node fromNode share).apply info) k).size)
          node fromNode s hne hsza hszb hszk, hcnt c, htotk c]
      have hbase := hinv c
      rw [childSum] at hbase
      calc |((m.childrenOf c).map (fun k => (info k).size)).sum +
            ((m.childrenOf c).count fromNode : ℚ) * s -
            ((m.childrenOf c).count fromNode : ℚ) * s - (info c).total|
          = |((m.childrenOf c).map (fun k => (info k).size)).sum - (info c).total| := by
            ring_nf
        _ < 1/10000 := hbase
    · rw [hsza, hszb]
      ring

/-- The group-child loop visits every child with the group frame; the
produced frames are the concatenation over the enumerated children. -/
lemma visitGroupChildren_frames (cfg : GroupIndicators) (screen : CGRect) (noFS : Bool)
    (gf : CGRect) (path vis sel : Bool) (selIdx : Option ℕ) :
    ∀ (children : List LTree) (i : ℕ),
    (visitGroupChildren cfg screen noFS children gf path vis sel selIdx i).1 =
      ((children.enumFrom i).map (fun p =>
        (visitNode cfg screen noFS p.2 gf (path && (selIdx == some p.1)) vis
          (sel && (selIdx == some p.1))).1)).flatten := by
  intro children
  induction children with
  | nil => intro i; rfl
  | cons c rest ih =>
      intro i
      rw [visitGroupChildren]
      simp only [List.enumFrom_cons, List.map_cons, List.flatten_cons]
      rw [ih (i + 1)]

/-- C1 counterexample: a Tabbed container (indicators enabled, thickness
20) with two windows and the first one selected.  The claim predicts the
pass recurses into the selected child only, which would emit one frame;
the code emits frames for *both* children, each with the reduced frame. -/
theorem group_layout_counterexample :
    (calculateLayoutAndGroups ⟨true, 20, .Top, .Left⟩ ⟨⟨0,0⟩,⟨1000,1000⟩⟩
        (.cont .Tabbed 1 2 false (some 0)
          [.leaf ⟨1,1⟩ 1 false, .leaf ⟨1,2⟩ 1 false])).1.map Prod.fst ≠
      (visitNode ⟨true, 20, .Top, .Left⟩ ⟨⟨0,0⟩,⟨1000,1000⟩⟩ true
        (.leaf ⟨1,1⟩ 1 false)
        (size_with_group_indicator ⟨⟨0,0⟩,⟨1000,1000⟩⟩ .Tabbed ⟨true, 20, .Top, .Left⟩).1
        true true true).1.map Prod.fst ∧
      (calculateLayoutAndGroups ⟨true, 20, .Top, .Left⟩ ⟨⟨0,0⟩,⟨1000,1000⟩⟩
        (.cont .Tabbed 1 2 false (some 0)
          [.leaf ⟨1,1⟩ 1 false, .leaf ⟨1,2⟩ 1 false])).1 =
      [(⟨1,1⟩, ⟨⟨0,20⟩,⟨1000,980⟩⟩), (⟨1,2⟩, ⟨⟨0,20⟩,⟨1000,980⟩⟩)] := by
  constructor
  · decide
  · norm_num [calculateLayoutAndGroups, LTree.anyFullscreen, anyFullscreenList,
      LTree.is_fullscreen, visitNode, visitGroupChildren, size_with_group_indicator]

/-- C1 amended: laying out a (non-fullscreen) Tabbed or Stacked container,
the pass recurses into every child with the group frame (the reduced
rectangle when indicators are enabled, the full rectangle otherwise); the
group-bar record carries the indicator rect, which is the empty rectangle
when indicators are disabled; and `size_with_group_indicator` reserves a
`bar_thickness`-sized strip along the configured edge. -/
theorem group_layout_all_children (cfg : GroupIndicators) (screen : CGRect) (noFS : Bool)
    (kind : ContainerKind) (hkind : kind.is_group = true)
    (sz total : ℚ) (selIdx : Option ℕ) (children : List LTree)
    (rect : CGRect) (path pvis sel : Bool) :
    (visitNode cfg screen noFS (.cont kind sz total false selIdx children)
        rect path pvis sel).1 =
      ((children.enum).map (fun p =>
        (visitNode cfg screen noFS p.2
          (if cfg.enable then (size_with_group_indicator rect kind cfg).1 else rect)
          (path && (selIdx == some p.1)) (path && (pvis || noFS || false))
          (sel && (selIdx == some p.1))).1)).flatten ∧
      (visitNode cfg screen noFS (.cont kind sz total false selIdx children)
          rect path pvis sel).2.getLast? =
        some { container_kind := kind
               indicator_frame := if cfg.enable then
                   (size_with_group_indicator rect kind cfg).2
                 else CGRect.ZERO
               total_count := children.length
               selected_index := match selIdx with
                 | some i => if i < children.length then i else 0
                 | none => 0
               is_visible := path && (pvis || noFS || false)
               is_selected := sel } ∧
      (kind = .Tabbed →
        (size_with_group_indicator rect kind cfg).2.size =
            ⟨rect.size.width, cfg.bar_thickness⟩ ∧
          (size_with_group_indicator rect kind cfg).1.size =
            ⟨rect.size.width, rect.size.height - cfg.bar_thickness⟩ ∧
          ((size_with_group_indicator rect kind cfg).2.origin = rect.origin ∧
            (size_with_group_indicator rect kind cfg).1.origin =
              ⟨rect.origin.x, rect.origin.y + cfg.bar_thickness⟩ ∨
           (size_with_group_indicator rect kind cfg).1.origin = rect.origin ∧
            (size_with_group_indicator rect kind cfg).2.origin =
              ⟨rect.origin.x, rect.origin.y + (rect.size.height - cfg.bar_thickness)⟩)) ∧
      (kind = .Stacked →
        (size_with_group_indicator rect kind cfg).2.size =
            ⟨cfg.bar_thickness, rect.size.height⟩ ∧
          (size_with_group_indicator rect kind cfg).1.size =
            ⟨rect.size.width - cfg.bar_thickness, rect.size.height⟩ ∧
          ((size_with_group_indicator rect kind cfg).2.origin = rect.origin ∧
            (size_with_group_indicator rect kind cfg).1.origin =
              ⟨rect.origin.x + cfg.bar_thickness, rect.origin.y⟩ ∨
           (size_with_group_indicator rect kind cfg).1.origin = rect.origin ∧
            (size_with_group_indicator rect kind cfg).2.origin =
              ⟨rect.origin.x + (rect.size.width - cfg.bar_thickness), rect.origin.y⟩)) := by
  have hjoin : ∀ gfp : CGRect × CGRect,
      (visitGroupChildren cfg screen noFS children gfp.1 path
        (path && (pvis || noFS || false)) sel selIdx 0).1 =
      ((children.enum).map (fun p =>
        (visitNode cfg screen noFS p.2 gfp.1
          (path && (selIdx == some p.1)) (path && (pvis || noFS || false))
          (sel && (selIdx == some p.1))).1)).flatten := by
    intro gfp
    exact visitGroupChildren_frames cfg screen noFS gfp.1 path
      (path && (pvis || noFS || false)) sel selIdx children 0
  cases kind with
  | Horizontal => exact absurd hkind (by decide)
  | Vertical => exact absurd hkind (by decide)
  | Tabbed =>
      refine ⟨?_, ?_, ?_, ?_⟩
      · rw [visitNode.eq_def]
        dsimp only
        by_cases he : cfg.enable
        · simp only [he, if_true]
          exact hjoin (size_with_group_indicator rect .Tabbed cfg)
        · simp only [he, if_false]
          exact hjoin (rect, CGRect.ZERO)
      · rw [visitNode.eq_def]
        dsimp only
        by_cases he : cfg.enable
        · simp [he, List.getLast?_concat]
        · simp [he, List.getLast?_concat]
      · intro _
        rw [size_with_group_indicator]
        cases cfg.horizontal_placement with
        | Top => exact ⟨rfl, rfl, Or.inl ⟨rfl, rfl⟩⟩
        | Bottom => exact ⟨rfl, rfl, Or.inr ⟨rfl, rfl⟩⟩
      · intro hk
        exact absurd hk (by decide)
  | Stacked =>
      refine ⟨?_, ?_, ?_, ?_⟩
      · rw [visitNode.eq_def]
        dsimp only
        by_cases he : cfg.enable
        · simp only [he, if_true]
          exact hjoin (size_with_group_indicator rect .Stacked cfg)
        · simp only [he, if_false]
          exact hjoin (rect, CGRect.ZERO)
      · rw [visitNode.eq_def]
        dsimp only
        by_cases he : cfg.enable
        · simp [he, List.getLast?_concat]
        · simp [he, List.getLast?_concat]
      · intro hk
        exact absurd hk (by decide)
      · intro _
        rw [size_with_group_indicator]
        cases cfg.vertical_placement with
        | Left => exact ⟨rfl, rfl, Or.inl ⟨rfl, rfl⟩⟩
        | Right => exact ⟨rfl, rfl, Or.inr ⟨rfl, rfl⟩⟩

/-- Witness for C1 (amended): the disabled-indicator instance; the group
record's indicator rect is the empty rectangle. -/
theorem group_layout_all_children_witness :
    (visitNode ⟨false, 20, .Top, .Left⟩ ⟨⟨0,0⟩,⟨1000,1000⟩⟩ true
        (.cont .Tabbed 1 2 false (some 0) [.leaf ⟨1,1⟩ 1 false, .leaf ⟨1,2⟩ 1 false])
        ⟨⟨0,0⟩,⟨1000,1000⟩⟩ true true true).2.getLast? =
      some { container_kind := .Tabbed
             indicator_frame := if (⟨false, 20, .Top, .Left⟩ : GroupIndicators).enable then
                 (size_with_group_indicator ⟨⟨0,0⟩,⟨1000,1000⟩⟩ .Tabbed
                   ⟨false, 20, .Top, .Left⟩).2
               else CGRect.ZERO
             total_count := ([.leaf ⟨1,1⟩ 1 false, .leaf ⟨1,2⟩ 1 false] : List LTree).length
             selected_index := match (some 0 : Option ℕ) with
               | some i => if i < ([.leaf ⟨1,1⟩ 1 false,
                   .leaf ⟨1,2⟩ 1 false] : List LTree).length then i else 0
               | none => 0
             is_visible := true && (true || true || false)
             is_selected := true } :=
  (group_layout_all_children ⟨false, 20, .Top, .Left⟩ ⟨⟨0,0⟩,⟨1000,1000⟩⟩ true
    .Tabbed rfl 1 2 (some 0) [.leaf ⟨1,1⟩ 1 false, .leaf ⟨1,2⟩ 1 false]
    ⟨⟨0,0⟩,⟨1000,1000⟩⟩ true true true).2.1

/-- C2: the code contradicts the claim: for any command issued with a
space that has no layout mapping, `handle_command` panics at the
`self.layout(space)` unwrap in its opening debug block, before the guarded
mapping check that would return the default response. -/
theorem handle_command_missing_mapping_panics (st : LayoutManagerState) (s : ℕ)
    (cmd : LayoutCommand) (h : st.layout_mapping s = false) :
    handle_command_entry st (some s) cmd = .panicked := by
  rw [handle_command_entry]
  simp [h]

/-- Witness for C2 at a concrete manager state with no mappings. -/
theorem handle_command_missing_mapping_panics_witness :
    handle_command_entry
        { scroll_enabled := true
          focused_window := none
          last_floating_focus := none
          floating_windows := []
          active_floating := []
          tree_windows := []
          layout_mapping := fun _ => false }
        (some 1) (.MoveFocus .Left) = .panicked :=
  handle_command_missing_mapping_panics _ 1 _ rfl

/-- Witness for C3: adding node 2 under root 0 in the empty forest, by
applying the theorem with its hypotheses discharged concretely. -/
theorem size_sum_invariant_witness :
    (((SizeOp.addedToParent 2 0).apply (fun _ => LayoutInfo.default)) 2).size = 1 ∧
      (((SizeOp.addedToParent 2 0).apply (fun _ => LayoutInfo.default)) 0).total =
        ((fun _ => LayoutInfo.default) 0).total + 1 := by
  have h := size_sum_invariant.2.1 ⟨fun _ => []⟩ (fun _ => LayoutInfo.default) 0 2
    size_sum_invariant.1 (fun c => by simp) (by decide)
  exact ⟨h.2.1, h.2.2⟩

end Glide
